import Mathlib

/-
Shallow embedding of the transaction execution engine of fakeIndexedDB
(src/FDBTransaction.ts).  Pure state passing replaces JS object mutation:
every method takes and returns an explicit configuration.  JS exceptions
are modelled with Except, the thrown error name paired with the
configuration at the moment of the throw (JS mutations performed before a
throw persist).  The process-wide task queue of lib/scheduling.js
(queueTask) is a FIFO list of tasks in the configuration; event dispatch
(lib/FakeEvent.js / lib/FakeEventTarget.js, specified in the design
document section 4.2) is recorded in an observation trace, with listener
behaviour reduced to the one observable decision a listener can make for
the claims at hand: whether it cancels a cancelable event
(preventDefault).
-/

namespace FakeIDB

/-- Transaction lifecycle states, FDBTransaction.ts line 23. -/
inductive TxState
  | active
  | inactive
  | committing
  | finished
deriving DecidableEq, Repr

/-- Request readiness, FDBRequest readyState. -/
inductive ReadyState
  | pending
  | done
deriving DecidableEq, Repr

/-- The observable outcome of one zero-argument operation closure: it
either returns a value synchronously or throws a named failure
(design document section 6, store/operation layer contract). -/
inductive BaseOp
  | ret (v : Nat)
  | throwErr (name : String)
deriving DecidableEq, Repr

/-- Description of a request that an operation enqueues while it runs
(via FDBTransaction._execRequestAsync, as cursor continuations do):
the id for its fresh FDBRequest, its base operation, and whether the
listeners attached to it cancel a cancelable error event. -/
structure SubReq where
  id : Nat
  op : BaseOp
  cancelsError : Bool
deriving DecidableEq, Repr

/-- An operation closure: either a base operation, or one that first
enqueues new requests on its transaction and then returns a value. -/
inductive Operation
  | base (b : BaseOp)
  | enqThen (subs : List SubReq) (v : Nat)
deriving DecidableEq, Repr

/-- FDBRequest, the fields observable by the claims: identity, source
(present or absent), readyState, result, error, and the modelled listener
decision for cancelable error events dispatched on it. -/
structure FDBRequest where
  id : Nat
  source : Bool
  readyState : ReadyState
  result : Option Nat
  error : Option String
  cancelsError : Bool
deriving DecidableEq, Repr

/-- One compensating entry of the rollback log: its identity and
whether calling it throws. -/
structure RollbackEntry where
  id : Nat
  throws : Bool
deriving DecidableEq, Repr

/-- Event-path targets reachable in this engine. -/
inductive Target
  | db
  | tx
deriving DecidableEq, Repr

/-- FakeEvent: type, bubbles, cancelable, eventPath. -/
structure FakeEvent where
  type : String
  bubbles : Bool
  cancelable : Bool
  eventPath : List Target
deriving DecidableEq, Repr

/-- One observable step recorded by the engine: an operation closure
invoked for a request, an event dispatched (on a request when onReq is
some, on the transaction when none) together with whether a listener
canceled it, or a rollback-log compensation invoked. -/
inductive TraceItem
  | execOp (reqId : Nat)
  | dispatched (onReq : Option Nat) (e : FakeEvent) (canceled : Bool)
  | comp (id : Nat)
deriving DecidableEq, Repr

/-- FDBTransaction state, FDBTransaction.ts lines 22-51.  The object-store
cache maps store names to handle identities; _nextHandle supplies the
identity of the next FDBObjectStore constructed, so that object identity
of cached handles is expressible. -/
structure FDBTransaction where
  _state : TxState
  _started : Bool
  _rollbackLog : List RollbackEntry
  _objectStoresCache : List (String × Nat)
  _scope : List String
  error : Option String
  _requests : List (Operation × FDBRequest)
  _nextHandle : Nat
deriving DecidableEq, Repr

/-- Tasks queued on the process-wide scheduler (lib/scheduling.js
queueTask): another driver-loop invocation, or the deferred dispatch of
the abort event scheduled by _abort. -/
inductive Task
  | startTask
  | abortEventTask
deriving DecidableEq, Repr

/-- A configuration: the transaction, the scheduler queue, the
observation trace, and the requests already taken off the queue and
completed by the driver (the caller keeps references to them, so their
terminal field values stay observable). -/
structure Config where
  tx : FDBTransaction
  tasks : List Task
  trace : List TraceItem
  doneReqs : List FDBRequest
deriving DecidableEq, Repr

/-- The rollback loop of _abort (FDBTransaction.ts lines 55-57):
invoke the entries of the already-reversed log one by one, recording each
invocation; a throwing entry stops the loop (the for loop has no
try/catch, so the exception propagates).  Returns the extended trace and
whether an entry threw. -/
def runRollback : List RollbackEntry → List TraceItem → List TraceItem × Bool
  | [], tr => (tr, false)
  | e :: rest, tr =>
    if e.throws then (tr ++ [TraceItem.comp e.id], true)
    else runRollback rest (tr ++ [TraceItem.comp e.id])

/-- The request-marking loop of _abort (FDBTransaction.ts lines 66-81):
every request still pending is marked done; if it has a source, its
result is cleared, its error set to AbortError, and a bubbling cancelable
error event with path [db, transaction] is dispatched on it.  Requests
stay in the queue (the source only mutates them). -/
def abortMarkRequests :
    List (Operation × FDBRequest) → List TraceItem →
    List (Operation × FDBRequest) × List TraceItem
  | [], tr => ([], tr)
  | (op, r) :: rest, tr =>
    if r.readyState ≠ ReadyState.done then
      if r.source then
        let r2 : FDBRequest :=
          { r with readyState := ReadyState.done, result := none,
                   error := some "AbortError" }
        let ev : FakeEvent :=
          { type := "error", bubbles := true, cancelable := true,
            eventPath := [Target.db, Target.tx] }
        let tr2 := tr ++ [TraceItem.dispatched (some r2.id) ev r2.cancelsError]
        let p := abortMarkRequests rest tr2
        ((op, r2) :: p.1, p.2)
      else
        let r2 : FDBRequest := { r with readyState := ReadyState.done }
        let p := abortMarkRequests rest tr
        ((op, r2) :: p.1, p.2)
    else
      let p := abortMarkRequests rest tr
      ((op, r) :: p.1, p.2)

/-- Steps for aborting a transaction, FDBTransaction.ts lines 54-93
(_abort): run the rollback log in reverse; if an entry throws, the
exception propagates (error branch) and nothing further happens.
Otherwise record the error name when one is supplied, mark the still
pending requests, queue the deferred abort-event dispatch on the task
scheduler, and set the state to finished synchronously. -/
def FDBTransaction._abort (errName : Option String) (c : Config) :
    Except Config Config :=
  let p := runRollback c.tx._rollbackLog.reverse c.trace
  if p.2 then Except.error { c with trace := p.1 }
  else
    let err := match errName with
      | some n => some n
      | none => c.tx.error
    let q := abortMarkRequests c.tx._requests p.1
    Except.ok
      { c with
        tx := { c.tx with error := err, _requests := q.1,
                          _state := TxState.finished },
        trace := q.2,
        tasks := c.tasks ++ [Task.abortEventTask] }

/-- IDBTransaction.abort, FDBTransaction.ts lines 95-102: throws
InvalidStateError when committing or finished, otherwise forces the state
to active and runs _abort with a null error name.  A throw from a
rollback compensation propagates out of abort as well (modelled with the
name CompensationError). -/
def FDBTransaction.abort (c : Config) : Except (String × Config) Config :=
  if c.tx._state = TxState.committing ∨ c.tx._state = TxState.finished then
    Except.error ("InvalidStateError", c)
  else
    let c2 := { c with tx := { c.tx with _state := TxState.active } }
    match FDBTransaction._abort none c2 with
    | Except.ok c3 => Except.ok c3
    | Except.error c3 => Except.error ("CompensationError", c3)

/-- IDBTransaction.objectStore, FDBTransaction.ts lines 105-124: throws
InvalidStateError unless active; returns the cached handle when one
exists; otherwise throws NotFoundError when the name is outside the scope
or absent from the database registry (db lists the names of the raw
object stores); otherwise constructs a fresh handle, caches it and
returns it. -/
def FDBTransaction.objectStore (t : FDBTransaction) (name : String)
    (db : List String) : Except String (Nat × FDBTransaction) :=
  if t._state ≠ TxState.active then Except.error "InvalidStateError"
  else
    match t._objectStoresCache.lookup name with
    | some h => Except.ok (h, t)
    | none =>
      if ¬ t._scope.contains name ∨ ¬ db.contains name then
        Except.error "NotFoundError"
      else
        let h := t._nextHandle
        Except.ok (h,
          { t with _nextHandle := h + 1,
                   _objectStoresCache := t._objectStoresCache ++ [(name, h)] })

/-- Steps for asynchronously executing a request, FDBTransaction.ts
lines 127-154 (_execRequestAsync) for a source-bearing request: throws
TransactionInactiveError unless active, otherwise constructs a fresh
pending FDBRequest and pushes the pair onto the end of the request
queue. -/
def FDBTransaction._execRequestAsync (s : SubReq) (t : FDBTransaction) :
    Except String FDBTransaction :=
  if t._state ≠ TxState.active then Except.error "TransactionInactiveError"
  else
    Except.ok
      { t with _requests := t._requests ++
          [(Operation.base s.op,
            { id := s.id, source := true, readyState := ReadyState.pending,
              result := none, error := none,
              cancelsError := s.cancelsError })] }

/-- Enqueue each sub-request in turn through _execRequestAsync; the first
throw propagates (mutations before it persist, matching JS). -/
def enqueueSubs : List SubReq → FDBTransaction →
    Except (String × FDBTransaction) FDBTransaction
  | [], t => Except.ok t
  | s :: rest, t =>
    match FDBTransaction._execRequestAsync s t with
    | Except.ok t2 => enqueueSubs rest t2
    | Except.error n => Except.error (n, t)

/-- Run one operation closure against the transaction: a base operation
returns its value or throws its error name; an enqueueing operation
pushes its sub-requests through _execRequestAsync and then returns. -/
def runOperation (op : Operation) (t : FDBTransaction) :
    Except (String × FDBTransaction) (Nat × FDBTransaction) :=
  match op with
  | Operation.base (BaseOp.ret v) => Except.ok (v, t)
  | Operation.base (BaseOp.throwErr n) => Except.error (n, t)
  | Operation.enqThen subs v =>
    match enqueueSubs subs t with
    | Except.ok t2 => Except.ok (v, t2)
    | Except.error e => Except.error e

/-- The shift loop at the head of _start (FDBTransaction.ts lines
159-171): pop entries off the front of the queue until one is found
whose request is not already done (entries become done through an abort),
or the queue empties.  Returns the found pair and the remaining queue. -/
def shiftUntilPending : List (Operation × FDBRequest) →
    Option (Operation × FDBRequest) × List (Operation × FDBRequest)
  | [] => (none, [])
  | (op, r) :: rest =>
    if r.readyState ≠ ReadyState.done then (some (op, r), rest)
    else shiftUntilPending rest

/-- The driver loop, FDBTransaction.ts lines 156-245 (_start), one
invocation.  Marks the transaction started, pops the first not-yet-done
request off the queue, and either executes it or finalizes.  A
source-less request just runs its operation.  A source-bearing request
runs its operation inside try/catch: on success the request is completed
with the result and a non-bubbling success event is built; on a throw the
request is completed with the error and a bubbling cancelable error event
is built together with a default action of aborting with the thrown
failure name; in both branches an inactive state is restored to active
before the event is built.  The event is dispatched with path
[db, transaction]; when it was not canceled the recorded default action
runs (a throw from a rollback compensation inside it propagates, skipping
the reschedule).  After processing one request another driver invocation
is queued on the task scheduler.  With the queue drained, a state other
than finished becomes finished and, when no error was recorded, a
complete event is dispatched on the transaction. -/
def FDBTransaction._start (c : Config) : Except Config Config :=
  let c0 := { c with tx := { c.tx with _started := true } }
  let sp := shiftUntilPending c0.tx._requests
  let c1 := { c0 with tx := { c0.tx with _requests := sp.2 } }
  match sp.1 with
  | some (op, req) =>
    if req.source then
      let c2 := { c1 with trace := c1.trace ++ [TraceItem.execOp req.id] }
      match runOperation op c2.tx with
      | Except.ok (v, tx2) =>
        let req2 : FDBRequest :=
          { req with readyState := ReadyState.done, result := some v,
                     error := none }
        let tx3 := if tx2._state = TxState.inactive
          then { tx2 with _state := TxState.active } else tx2
        let ev : FakeEvent :=
          { type := "success", bubbles := false, cancelable := false,
            eventPath := [Target.db, Target.tx] }
        let canceled := req2.cancelsError && ev.cancelable
        let c3 :=
          { c2 with
            tx := tx3
            trace := c2.trace ++ [TraceItem.dispatched (some req2.id) ev canceled]
            doneReqs := c2.doneReqs ++ [req2] }
        Except.ok { c3 with tasks := c3.tasks ++ [Task.startTask] }
      | Except.error (n, tx2) =>
        let req2 : FDBRequest :=
          { req with readyState := ReadyState.done, result := none,
                     error := some n }
        let tx3 := if tx2._state = TxState.inactive
          then { tx2 with _state := TxState.active } else tx2
        let ev : FakeEvent :=
          { type := "error", bubbles := true, cancelable := true,
            eventPath := [Target.db, Target.tx] }
        let canceled := req2.cancelsError && ev.cancelable
        let c3 :=
          { c2 with
            tx := tx3
            trace := c2.trace ++ [TraceItem.dispatched (some req2.id) ev canceled]
            doneReqs := c2.doneReqs ++ [req2] }
        if canceled then
          Except.ok { c3 with tasks := c3.tasks ++ [Task.startTask] }
        else
          match FDBTransaction._abort (some n) c3 with
          | Except.ok c4 =>
            Except.ok { c4 with tasks := c4.tasks ++ [Task.startTask] }
          | Except.error c4 => Except.error c4
    else
      let c2 := { c1 with trace := c1.trace ++ [TraceItem.execOp req.id] }
      match runOperation op c2.tx with
      | Except.ok (_, tx2) =>
        Except.ok { c2 with tx := tx2, tasks := c2.tasks ++ [Task.startTask] }
      | Except.error (_, tx2) => Except.error { c2 with tx := tx2 }
  | none =>
    if c1.tx._state ≠ TxState.finished then
      let c2 := { c1 with tx := { c1.tx with _state := TxState.finished } }
      if c2.tx.error = none then
        Except.ok { c2 with trace := c2.trace ++
          [TraceItem.dispatched none
            { type := "complete", bubbles := false, cancelable := false,
              eventPath := [] } false] }
      else Except.ok c2
    else Except.ok c1

/-- IDBTransaction.commit, FDBTransaction.ts lines 247-253: throws
InvalidStateError unless active, otherwise transitions to committing. -/
def FDBTransaction.commit (c : Config) : Except (String × Config) Config :=
  if c.tx._state ≠ TxState.active then Except.error ("InvalidStateError", c)
  else Except.ok { c with tx := { c.tx with _state := TxState.committing } }

/-- Run one scheduler task: a queued driver invocation, or the deferred
abort-event dispatch of _abort (FDBTransaction.ts lines 83-90): an abort
event, bubbling, not cancelable, with path [db], dispatched on the
transaction. -/
def runTask (t : Task) (c : Config) : Except Config Config :=
  match t with
  | Task.startTask => FDBTransaction._start c
  | Task.abortEventTask =>
    Except.ok { c with trace := c.trace ++
      [TraceItem.dispatched none
        { type := "abort", bubbles := true, cancelable := false,
          eventPath := [Target.db] } false] }

/-- Drain the scheduler queue FIFO, one task per tick, with fuel: each
tick pops the front task and runs it; an uncaught exception stops the
run.  lib/scheduling.js drains its queue in insertion order. -/
def runTasks : Nat → Config → Except Config Config
  | 0, c => Except.ok c
  | n + 1, c =>
    match c.tasks with
    | [] => Except.ok c
    | t :: rest =>
      match runTask t { c with tasks := rest } with
      | Except.ok c2 => runTasks n c2
      | Except.error c2 => Except.error c2

/-- Request ids in order of operation invocation. -/
def execOrder (tr : List TraceItem) : List Nat :=
  tr.filterMap fun i =>
    match i with
    | TraceItem.execOp id => some id
    | _ => none

/-- Compensation ids in order of invocation. -/
def compOrder (tr : List TraceItem) : List Nat :=
  tr.filterMap fun i =>
    match i with
    | TraceItem.comp id => some id
    | _ => none

/-- Request ids in order of success-event dispatch. -/
def successOrder (tr : List TraceItem) : List Nat :=
  tr.filterMap fun i =>
    match i with
    | TraceItem.dispatched (some id) e _ =>
      if e.type = "success" then some id else none
    | _ => none

/-- Number of complete events dispatched on the transaction. -/
def countComplete (tr : List TraceItem) : Nat :=
  tr.countP fun i =>
    match i with
    | TraceItem.dispatched none e _ => e.type = "complete"
    | _ => false

/-- A freshly constructed transaction (FDBTransaction.ts lines 42-51)
over the given scope with the given queue and rollback log already
populated, the driver invocation queued (the engine queues _start when
the transaction is created). -/
def initConfig (scope : List String) (log : List RollbackEntry)
    (reqs : List (Operation × FDBRequest)) : Config :=
  { tx :=
      { _state := TxState.active, _started := false, _rollbackLog := log,
        _objectStoresCache := [], _scope := scope, error := none,
        _requests := reqs, _nextHandle := 0 },
    tasks := [Task.startTask], trace := [], doneReqs := [] }

/-- A pending source-bearing request with the given id and listener
decision. -/
def mkReq (id : Nat) (cancels : Bool) : FDBRequest :=
  { id := id, source := true, readyState := ReadyState.pending,
    result := none, error := none, cancelsError := cancels }

/-- Number of abort events dispatched on the transaction itself. -/
def countAbortEvents (tr : List TraceItem) : Nat :=
  tr.countP fun i =>
    match i with
    | TraceItem.dispatched none e _ => e.type = "abort"
    | _ => false

/-- Observation trace of a run, whether or not it ended in an uncaught
exception. -/
def runTrace (fuel : Nat) (c : Config) : List TraceItem :=
  match runTasks fuel c with
  | Except.ok c2 => c2.trace
  | Except.error c2 => c2.trace

/-- Observation trace of a call to abort, whether it returned or threw. -/
def abortObsTrace (c : Config) : List TraceItem :=
  match FDBTransaction.abort c with
  | Except.ok c2 => c2.trace
  | Except.error p => p.2.trace

/-- Whether a call to abort threw. -/
def abortThrew (c : Config) : Bool :=
  match FDBTransaction.abort c with
  | Except.ok _ => false
  | Except.error _ => true

/-- When none of the entries throws, the rollback loop runs the whole
list in order, appending one comp item per entry. -/
theorem runRollback_of_noThrow (l : List RollbackEntry) (tr : List TraceItem)
    (h : ∀ e ∈ l, e.throws = false) :
    runRollback l tr = (tr ++ l.map fun e => TraceItem.comp e.id, false) := by
  induction l generalizing tr with
  | nil => simp [runRollback]
  | cons e rest ih =>
    have he : e.throws = false := h e (by simp)
    have hrest : ∀ x ∈ rest, x.throws = false := fun x hx => h x (by simp [hx])
    simp [runRollback, he, ih (tr ++ [TraceItem.comp e.id]) hrest]

/-- Compensation observations distribute over trace concatenation. -/
theorem compOrder_append (a b : List TraceItem) :
    compOrder (a ++ b) = compOrder a ++ compOrder b := by
  simp [compOrder, List.filterMap_append]

/-- The comp items of a mapped rollback log list exactly its entry ids. -/
theorem compOrder_comps (l : List RollbackEntry) :
    compOrder (l.map fun e => TraceItem.comp e.id) = l.map RollbackEntry.id := by
  induction l with
  | nil => simp [compOrder]
  | cons e rest ih => simp [compOrder, List.filterMap] at ih ⊢; exact ih

/-- Marking pending requests during abort dispatches error events only;
it adds no compensation observations. -/
theorem compOrder_abortMark (rs : List (Operation × FDBRequest))
    (tr : List TraceItem) :
    compOrder (abortMarkRequests rs tr).2 = compOrder tr := by
  induction rs generalizing tr with
  | nil => simp [abortMarkRequests]
  | cons p rest ih =>
    obtain ⟨op, r⟩ := p
    by_cases hd : r.readyState = ReadyState.done
    · simp [abortMarkRequests, hd, ih]
    · by_cases hs : r.source = true
      · simp only [abortMarkRequests, hs]
        rw [if_pos hd]
        simp only [ite_true]
        rw [ih, compOrder_append]
        simp [compOrder]
      · simp [abortMarkRequests, hd, hs, ih]

/-- Marking pending requests during abort adds no transaction-level
abort event to the trace. -/
theorem countAbortEvents_abortMark (rs : List (Operation × FDBRequest))
    (tr : List TraceItem) :
    countAbortEvents (abortMarkRequests rs tr).2 = countAbortEvents tr := by
  induction rs generalizing tr with
  | nil => simp [abortMarkRequests]
  | cons p rest ih =>
    obtain ⟨op, r⟩ := p
    by_cases hd : r.readyState = ReadyState.done
    · simp [abortMarkRequests, hd, ih]
    · by_cases hs : r.source = true
      · simp only [abortMarkRequests, hs]
        rw [if_pos hd]
        simp only [ite_true]
        rw [ih]
        simp [countAbortEvents, List.countP_append]
      · simp [abortMarkRequests, hd, hs, ih]

/-- Characterization of _abort when no rollback entry throws: the whole
reversed log runs, the error name is recorded when supplied, the pending
requests are marked, the abort-event dispatch is queued on the scheduler,
and the state becomes finished. -/
theorem abort_ok_of_noThrow (c : Config) (errName : Option String)
    (h : ∀ e ∈ c.tx._rollbackLog, e.throws = false) :
    FDBTransaction._abort errName c = Except.ok
      { c with
        tx := { c.tx with
          error := match errName with
            | some n => some n
            | none => c.tx.error
          _requests := (abortMarkRequests c.tx._requests
            (c.trace ++ c.tx._rollbackLog.reverse.map
              (fun e => TraceItem.comp e.id))).1
          _state := TxState.finished }
        trace := (abortMarkRequests c.tx._requests
          (c.trace ++ c.tx._rollbackLog.reverse.map
            (fun e => TraceItem.comp e.id))).2
        tasks := c.tasks ++ [Task.abortEventTask] } := by
  have hrev : ∀ e ∈ c.tx._rollbackLog.reverse, e.throws = false := by
    intro e he
    exact h e (List.mem_reverse.mp he)
  simp [FDBTransaction._abort,
    runRollback_of_noThrow c.tx._rollbackLog.reverse c.trace hrev]

/-- A configuration built from all of its field values.  Every
configuration is of this shape, so a theorem quantified over the
arguments of genCfg covers every configuration. -/
def genCfg (st : TxState) (b0 : Bool) (log : List RollbackEntry)
    (cache : List (String × Nat)) (scope : List String) (err0 : Option String)
    (reqs : List (Operation × FDBRequest)) (k : Nat) (ts : List Task)
    (tr : List TraceItem) (dr : List FDBRequest) : Config :=
  { tx := { _state := st, _started := b0, _rollbackLog := log,
            _objectStoresCache := cache, _scope := scope, error := err0,
            _requests := reqs, _nextHandle := k },
    tasks := ts, trace := tr, doneReqs := dr }

/-- The trace produced by marking requests during abort extends the
incoming trace. -/
theorem abortMark_trace_extends (rs : List (Operation × FDBRequest))
    (tr : List TraceItem) :
    ∃ s, (abortMarkRequests rs tr).2 = tr ++ s := by
  induction rs generalizing tr with
  | nil => exact ⟨[], by simp [abortMarkRequests]⟩
  | cons p rest ih =>
    obtain ⟨op, r⟩ := p
    by_cases hd : r.readyState = ReadyState.done
    · obtain ⟨s, hs⟩ := ih tr
      exact ⟨s, by simp [abortMarkRequests, hd, hs]⟩
    · by_cases hsrc : r.source = true
      · obtain ⟨s, hs⟩ := ih (tr ++
          [TraceItem.dispatched (some r.id)
            { type := "error", bubbles := true, cancelable := true,
              eventPath := [Target.db, Target.tx] } r.cancelsError])
        refine ⟨TraceItem.dispatched (some r.id)
          { type := "error", bubbles := true, cancelable := true,
            eventPath := [Target.db, Target.tx] } r.cancelsError :: s, ?_⟩
        simp only [abortMarkRequests, hsrc]
        rw [if_pos hd]
        simp only [ite_true]
        rw [hs]
        simp
      · obtain ⟨s, hs⟩ := ih tr
        exact ⟨s, by simp [abortMarkRequests, hd, hsrc, hs]⟩

/-- Three requests r1 r2 r3 enqueued in that order on a fresh
transaction; the operation of r2 enqueues one further request r2a
(with id i4) through _execRequestAsync before returning. -/
def fifoCfg (i1 i2 i3 i4 v1 v2 v3 v4 : Nat) : Config :=
  initConfig [] []
    [ (Operation.base (BaseOp.ret v1), mkReq i1 false),
      (Operation.enqThen [{ id := i4, op := BaseOp.ret v4, cancelsError := false }] v2,
        mkReq i2 false),
      (Operation.base (BaseOp.ret v3), mkReq i3 false) ]

/-- Claim C1, counterexample: with requests r1 (id 1), r2 (id 2),
r3 (id 3) enqueued in that order and r2 enqueueing r2a (id 4) before
returning, the engine executes and completes the requests in order
1, 2, 3, 4: r2a runs after r3, not immediately after r2, because
_execRequestAsync pushes onto the tail of the queue while _start shifts
from the front. -/
theorem fifo_interposed_counterexample :
    execOrder (runTrace 10 (fifoCfg 1 2 3 4 10 20 30 40)) = [1, 2, 3, 4] ∧
    execOrder (runTrace 10 (fifoCfg 1 2 3 4 10 20 30 40)) ≠ [1, 2, 4, 3] ∧
    (execOrder (runTrace 10 (fifoCfg 1 2 3 4 10 20 30 40))).indexOf 3 <
      (execOrder (runTrace 10 (fifoCfg 1 2 3 4 10 20 30 40))).indexOf 4 := by
  refine ⟨rfl, by decide, by decide⟩

/-- Claim C1, amended: requests enqueued in order r1, r2, r3 execute and
complete in that order even when the operation of r2 enqueues a new
request r2a before returning; r2a is appended at the tail of the queue
and therefore executes after r3 (not immediately after r2), and the
transaction still completes exactly once. -/
theorem fifo_order_with_tail_enqueue (i1 i2 i3 i4 v1 v2 v3 v4 : Nat) :
    execOrder (runTrace 10 (fifoCfg i1 i2 i3 i4 v1 v2 v3 v4)) =
      [i1, i2, i3, i4] ∧
    successOrder (runTrace 10 (fifoCfg i1 i2 i3 i4 v1 v2 v3 v4)) =
      [i1, i2, i3, i4] ∧
    countComplete (runTrace 10 (fifoCfg i1 i2 i3 i4 v1 v2 v3 v4)) = 1 := by
  exact ⟨rfl, rfl, rfl⟩

/-- Rollback log with entry 1 appended first and entry 2 appended
second, where calling entry 2 throws. -/
def rollbackThrowCfg : Config := initConfig ["A"] [⟨1, false⟩, ⟨2, true⟩] []

/-- Claim C2, counterexample: with rollback log [c1, c2] where c2
throws, abort() invokes only c2; the exception propagates out of the
for loop of _abort, so c1 never runs, refuting the claim that an
exception thrown by one entry does not prevent the remaining entries
from running. -/
theorem rollback_throw_skips_rest_counterexample :
    compOrder (abortObsTrace rollbackThrowCfg) = [2] ∧
    ¬ 1 ∈ compOrder (abortObsTrace rollbackThrowCfg) ∧
    abortThrew rollbackThrowCfg = true := by
  refine ⟨rfl, by decide, rfl⟩

/-- Claim C2, amended: during the abort procedure the compensating
entries of a rollback log appended in order c1, ..., cn execute in
reverse order cn, ..., c1 provided none of them throws; a throwing entry
stops the loop and its exception propagates out of the abort
procedure. -/
theorem rollback_reverse_order (c : Config) (errName : Option String)
    (h : ∀ e ∈ c.tx._rollbackLog, e.throws = false) :
    ∃ c2, FDBTransaction._abort errName c = Except.ok c2 ∧
      compOrder c2.trace = compOrder c.trace ++
        (c.tx._rollbackLog.map RollbackEntry.id).reverse := by
  refine ⟨_, abort_ok_of_noThrow c errName h, ?_⟩
  rw [compOrder_abortMark, compOrder_append, compOrder_comps,
    List.map_reverse]

/-- Rollback log with two entries, neither of which throws. -/
def rollbackPairCfg : Config := initConfig ["A"] [⟨1, false⟩, ⟨2, false⟩] []

/-- Witness for the amended claim C2 at a concrete two-entry log. -/
theorem rollback_reverse_order_witness :
    ∃ c2, FDBTransaction._abort none rollbackPairCfg = Except.ok c2 ∧
      compOrder c2.trace = compOrder rollbackPairCfg.trace ++
        (rollbackPairCfg.tx._rollbackLog.map RollbackEntry.id).reverse :=
  rollback_reverse_order rollbackPairCfg none (by decide)

/-- Claim C3: when the request queue of a transaction drains (every
queued request already done) with error still null, the driver loop
dispatches a complete event exactly once: the draining invocation adds
one complete dispatch and leaves a finished configuration on which the
driver acts as the identity; when the queue drains with a non-null
error, the trace is unchanged and no complete event is ever
dispatched. -/
theorem complete_event_iff_no_error (c : Config)
    (h1 : c.tx._state ≠ TxState.finished)
    (h2 : shiftUntilPending c.tx._requests = (none, [])) :
    ∃ c2, FDBTransaction._start c = Except.ok c2 ∧
      c2.tx._state = TxState.finished ∧
      (c.tx.error = none →
        countComplete c2.trace = countComplete c.trace + 1) ∧
      (c.tx.error ≠ none → c2.trace = c.trace) ∧
      FDBTransaction._start c2 = Except.ok c2 := by
  by_cases he : c.tx.error = none
  · refine ⟨{ c with
        tx := { c.tx with
          _started := true
          _requests := []
          _state := TxState.finished }
        trace := c.trace ++
          [TraceItem.dispatched none
            { type := "complete", bubbles := false, cancelable := false,
              eventPath := [] } false] }, ?_, rfl, ?_, ?_, ?_⟩
    · simp [FDBTransaction._start, h2, h1, he]
    · intro _
      simp [countComplete, List.countP_append]
    · intro hne
      exact absurd he hne
    · simp [FDBTransaction._start, shiftUntilPending]
  · refine ⟨{ c with
        tx := { c.tx with
          _started := true
          _requests := []
          _state := TxState.finished } }, ?_, rfl, ?_, ?_, ?_⟩
    · simp [FDBTransaction._start, h2, h1, he]
    · intro hyes
      exact absurd hyes he
    · intro _
      rfl
    · simp [FDBTransaction._start, shiftUntilPending]

/-- Witness for claim C3 at a fresh empty-queue transaction. -/
theorem complete_event_iff_no_error_witness :
    ∃ c2, FDBTransaction._start (initConfig [] [] []) = Except.ok c2 ∧
      c2.tx._state = TxState.finished ∧
      ((initConfig [] [] []).tx.error = none →
        countComplete c2.trace =
          countComplete (initConfig [] [] []).trace + 1) ∧
      ((initConfig [] [] []).tx.error ≠ none →
        c2.trace = (initConfig [] [] []).trace) ∧
      FDBTransaction._start c2 = Except.ok c2 :=
  complete_event_iff_no_error (initConfig [] [] []) (by decide) (by decide)

/-- Claim C4: when the operation of a source-bearing request throws, the
driver loop completes the request with readyState done, result cleared
and error the thrown failure, dispatches a bubbling cancelable error
event with path [database, transaction] recording the listener decision,
and, when no listener cancels the event, runs the default action that
aborts the transaction with the failure name (state finished, error
recorded, abort event queued); when a listener cancels it, the auto-abort
is suppressed and the transaction carries on unchanged apart from the
rescheduled driver tick. -/
theorem request_error_event_auto_abort (n : String) (rid : Nat)
    (res0 : Option Nat) (err1 : Option String) (cb b0 : Bool)
    (log : List RollbackEntry) (cache : List (String × Nat))
    (scope : List String) (err0 : Option String)
    (rest : List (Operation × FDBRequest)) (k : Nat) (ts : List Task)
    (tr : List TraceItem) (dr : List FDBRequest)
    (hlog : ∀ e ∈ log, e.throws = false) :
    ∃ c2, FDBTransaction._start (genCfg TxState.active b0 log cache scope
        err0 ((Operation.base (BaseOp.throwErr n),
          { id := rid, source := true, readyState := ReadyState.pending,
            result := res0, error := err1, cancelsError := cb }) :: rest)
        k ts tr dr) = Except.ok c2 ∧
      c2.doneReqs = dr ++
        [{ id := rid, source := true, readyState := ReadyState.done,
           result := none, error := some n, cancelsError := cb }] ∧
      TraceItem.dispatched (some rid)
        { type := "error", bubbles := true, cancelable := true,
          eventPath := [Target.db, Target.tx] } cb ∈ c2.trace ∧
      (cb = false → c2.tx._state = TxState.finished ∧
        c2.tx.error = some n ∧ Task.abortEventTask ∈ c2.tasks) ∧
      (cb = true → c2.tx._state = TxState.active ∧ c2.tx.error = err0 ∧
        c2.tasks = ts ++ [Task.startTask]) := by
  cases cb with
  | true =>
    refine ⟨genCfg TxState.active true log cache scope err0 rest k
      (ts ++ [Task.startTask])
      ((tr ++ [TraceItem.execOp rid]) ++
        [TraceItem.dispatched (some rid)
          { type := "error", bubbles := true, cancelable := true,
            eventPath := [Target.db, Target.tx] } true])
      (dr ++
        [({ id := rid, source := true, readyState := ReadyState.done,
            result := none, error := some n,
            cancelsError := true } : FDBRequest)]),
      rfl, rfl, ?_, ?_, ?_⟩
    · simp [genCfg]
    · intro h
      exact absurd h (by decide)
    · intro _
      exact ⟨rfl, rfl, rfl⟩
  | false =>
    have habort := abort_ok_of_noThrow
      (genCfg TxState.active true log cache scope err0 rest k ts
        ((tr ++ [TraceItem.execOp rid]) ++
          [TraceItem.dispatched (some rid)
            { type := "error", bubbles := true, cancelable := true,
              eventPath := [Target.db, Target.tx] } false])
        (dr ++
          [{ id := rid, source := true, readyState := ReadyState.done,
             result := none, error := some n, cancelsError := false }]))
      (some n) hlog
    have hstep : FDBTransaction._start (genCfg TxState.active b0 log cache
        scope err0 ((Operation.base (BaseOp.throwErr n),
          { id := rid, source := true, readyState := ReadyState.pending,
            result := res0, error := err1, cancelsError := false }) :: rest)
        k ts tr dr) =
        (match FDBTransaction._abort (some n)
          (genCfg TxState.active true log cache scope err0 rest k ts
            ((tr ++ [TraceItem.execOp rid]) ++
              [TraceItem.dispatched (some rid)
                { type := "error", bubbles := true, cancelable := true,
                  eventPath := [Target.db, Target.tx] } false])
            (dr ++
              [{ id := rid, source := true,
                 readyState := ReadyState.done, result := none,
                 error := some n, cancelsError := false }])) with
        | Except.ok c4 =>
          Except.ok { c4 with tasks := c4.tasks ++ [Task.startTask] }
        | Except.error c4 => Except.error c4) := rfl
    rw [habort] at hstep
    simp only [genCfg] at hstep
    refine ⟨_, hstep, rfl, ?_, ?_, ?_⟩
    · obtain ⟨s, hs⟩ := abortMark_trace_extends rest
        ((tr ++ [TraceItem.execOp rid]) ++
          [TraceItem.dispatched (some rid)
            { type := "error", bubbles := true, cancelable := true,
              eventPath := [Target.db, Target.tx] } false] ++
          List.map (fun e => TraceItem.comp e.id) log.reverse)
      rw [hs]
      simp
    · intro _
      exact ⟨rfl, rfl, by simp⟩
    · intro h
      exact absurd h (by decide)

/-- When some entry of the list throws, the rollback loop ends in a
throw. -/
theorem runRollback_throws (l : List RollbackEntry) (tr : List TraceItem)
    (h : ∃ e ∈ l, e.throws = true) : (runRollback l tr).2 = true := by
  induction l generalizing tr with
  | nil => simp at h
  | cons e rest ih =>
    by_cases he : e.throws = true
    · simp [runRollback, he]
    · obtain ⟨x, hx, hxt⟩ := h
      rcases List.mem_cons.mp hx with rfl | hx2
      · exact absurd hxt he
      · have hb : e.throws = false := by simpa using he
        simp only [runRollback, hb]
        simp only [Bool.false_eq_true, if_false]
        exact ih (tr ++ [TraceItem.comp e.id]) ⟨x, hx2, hxt⟩

/-- Claim C5, amended: calling abort() with state committing or finished
throws InvalidStateError; calling it from active or inactive returns
normally and leaves the transaction with state finished provided no
rollback compensation throws; when a compensation throws, the exception
propagates out of abort() and the transaction stays in the active state
it was forced to, never reaching finished. -/
theorem abort_state_guard (st : TxState) (b0 : Bool)
    (log : List RollbackEntry) (cache : List (String × Nat))
    (scope : List String) (err0 : Option String)
    (reqs : List (Operation × FDBRequest)) (k : Nat) (ts : List Task)
    (tr : List TraceItem) (dr : List FDBRequest) :
    ((st = TxState.committing ∨ st = TxState.finished) →
      FDBTransaction.abort
        (genCfg st b0 log cache scope err0 reqs k ts tr dr) =
      Except.error ("InvalidStateError",
        genCfg st b0 log cache scope err0 reqs k ts tr dr)) ∧
    ((st = TxState.active ∨ st = TxState.inactive) →
      (∀ e ∈ log, e.throws = false) →
      ∃ c2, FDBTransaction.abort
          (genCfg st b0 log cache scope err0 reqs k ts tr dr) =
        Except.ok c2 ∧ c2.tx._state = TxState.finished) ∧
    ((st = TxState.active ∨ st = TxState.inactive) →
      (∃ e ∈ log, e.throws = true) →
      ∃ c3, FDBTransaction.abort
          (genCfg st b0 log cache scope err0 reqs k ts tr dr) =
        Except.error ("CompensationError", c3) ∧
        c3.tx._state = TxState.active) := by
  refine ⟨?_, ?_, ?_⟩
  · intro h
    rcases h with h | h <;> subst h <;> rfl
  · intro h hlog
    have habort := abort_ok_of_noThrow
      (genCfg TxState.active b0 log cache scope err0 reqs k ts tr dr)
      none hlog
    rcases h with h | h <;> subst h
    · have hstep : FDBTransaction.abort
          (genCfg TxState.active b0 log cache scope err0 reqs k ts tr dr) =
          (match FDBTransaction._abort none
            (genCfg TxState.active b0 log cache scope err0 reqs k ts tr dr)
          with
          | Except.ok c3 => Except.ok c3
          | Except.error c3 =>
            Except.error ("CompensationError", c3)) := rfl
      rw [habort] at hstep
      exact ⟨_, hstep, rfl⟩
    · have hstep : FDBTransaction.abort
          (genCfg TxState.inactive b0 log cache scope err0 reqs k ts tr dr) =
          (match FDBTransaction._abort none
            (genCfg TxState.active b0 log cache scope err0 reqs k ts tr dr)
          with
          | Except.ok c3 => Except.ok c3
          | Except.error c3 =>
            Except.error ("CompensationError", c3)) := rfl
      rw [habort] at hstep
      exact ⟨_, hstep, rfl⟩
  · intro h hth
    have hthr : ∃ e ∈ log.reverse, e.throws = true := by
      obtain ⟨e, he, ht⟩ := hth
      exact ⟨e, List.mem_reverse.mpr he, ht⟩
    have hb := runRollback_throws log.reverse tr hthr
    have habt : FDBTransaction._abort none
        (genCfg TxState.active b0 log cache scope err0 reqs k ts tr dr) =
        Except.error { genCfg TxState.active b0 log cache scope err0 reqs
          k ts tr dr with trace := (runRollback log.reverse tr).1 } := by
      simp only [FDBTransaction._abort, genCfg]
      rw [if_pos hb]
    rcases h with h | h <;> subst h
    · have hstep : FDBTransaction.abort
          (genCfg TxState.active b0 log cache scope err0 reqs k ts tr dr) =
          (match FDBTransaction._abort none
            (genCfg TxState.active b0 log cache scope err0 reqs k ts tr dr)
          with
          | Except.ok c3 => Except.ok c3
          | Except.error c3 =>
            Except.error ("CompensationError", c3)) := rfl
      rw [habt] at hstep
      exact ⟨_, hstep, rfl⟩
    · have hstep : FDBTransaction.abort
          (genCfg TxState.inactive b0 log cache scope err0 reqs k ts tr dr) =
          (match FDBTransaction._abort none
            (genCfg TxState.active b0 log cache scope err0 reqs k ts tr dr)
          with
          | Except.ok c3 => Except.ok c3
          | Except.error c3 =>
            Except.error ("CompensationError", c3)) := rfl
      rw [habt] at hstep
      exact ⟨_, hstep, rfl⟩

/-- Witness for the amended claim C5 at a concrete inactive transaction
with a one-entry rollback log. -/
theorem abort_state_guard_witness :
    ∃ c2, FDBTransaction.abort
        (genCfg TxState.inactive false [⟨5, false⟩] [] ["A"] none [] 0 [] [] []) =
      Except.ok c2 ∧ c2.tx._state = TxState.finished :=
  (abort_state_guard TxState.inactive false [⟨5, false⟩] [] ["A"] none
    [] 0 [] [] []).2.1 (Or.inr rfl) (by decide)

/-- The compensation observations of a rollback run contain no
transaction-level abort event. -/
theorem countAbortEvents_comps (l : List RollbackEntry) :
    countAbortEvents (l.map fun e => TraceItem.comp e.id) = 0 := by
  induction l with
  | nil => simp [countAbortEvents]
  | cons e rest ih => simp [countAbortEvents]

/-- Claim C6: during the abort procedure the abort event is not
dispatched synchronously: _abort returns with state already finished,
with no abort event in the trace beyond those already there, and with the
dispatch queued as a scheduler task; only when that task later runs is
the abort event (bubbling, non-cancelable, path [database]) dispatched on
the transaction. -/
theorem abort_event_deferred (c : Config) (errName : Option String)
    (h : ∀ e ∈ c.tx._rollbackLog, e.throws = false) :
    ∃ c2, FDBTransaction._abort errName c = Except.ok c2 ∧
      c2.tx._state = TxState.finished ∧
      c2.tasks = c.tasks ++ [Task.abortEventTask] ∧
      countAbortEvents c2.trace = countAbortEvents c.trace ∧
      runTask Task.abortEventTask c2 = Except.ok { c2 with
        trace := c2.trace ++
          [TraceItem.dispatched none
            { type := "abort", bubbles := true, cancelable := false,
              eventPath := [Target.db] } false] } := by
  refine ⟨_, abort_ok_of_noThrow c errName h, rfl, rfl, ?_, rfl⟩
  rw [countAbortEvents_abortMark]
  simp [countAbortEvents, List.countP_append, List.countP_map]

/-- Witness for claim C6 at a concrete transaction with a one-entry
rollback log. -/
theorem abort_event_deferred_witness :
    ∃ c2, FDBTransaction._abort (some "AbortError") rollbackPairCfg =
        Except.ok c2 ∧
      c2.tx._state = TxState.finished ∧
      c2.tasks = rollbackPairCfg.tasks ++ [Task.abortEventTask] ∧
      countAbortEvents c2.trace = countAbortEvents rollbackPairCfg.trace ∧
      runTask Task.abortEventTask c2 = Except.ok { c2 with
        trace := c2.trace ++
          [TraceItem.dispatched none
            { type := "abort", bubbles := true, cancelable := false,
              eventPath := [Target.db] } false] } :=
  abort_event_deferred rollbackPairCfg (some "AbortError") (by decide)

/-- Witness for claim C4 at a concrete throwing request whose error
event is not canceled, over a one-entry rollback log. -/
theorem request_error_event_auto_abort_witness :
    ∃ c2, FDBTransaction._start (genCfg TxState.active false [⟨7, false⟩]
        [] ["A"] none ((Operation.base (BaseOp.throwErr "ConstraintError"),
          { id := 1, source := true, readyState := ReadyState.pending,
            result := none, error := none, cancelsError := false }) :: [])
        0 [] [] []) = Except.ok c2 ∧
      c2.doneReqs = [] ++
        [{ id := 1, source := true, readyState := ReadyState.done,
           result := none, error := some "ConstraintError",
           cancelsError := false }] ∧
      TraceItem.dispatched (some 1)
        { type := "error", bubbles := true, cancelable := true,
          eventPath := [Target.db, Target.tx] } false ∈ c2.trace ∧
      (false = false → c2.tx._state = TxState.finished ∧
        c2.tx.error = some "ConstraintError" ∧
        Task.abortEventTask ∈ c2.tasks) ∧
      (false = true → c2.tx._state = TxState.active ∧ c2.tx.error = none ∧
        c2.tasks = [] ++ [Task.startTask]) :=
  request_error_event_auto_abort "ConstraintError" 1 none none false false
    [⟨7, false⟩] [] ["A"] none [] 0 [] [] [] (by decide)

/-- A fresh transaction holding one queued request that returns v. -/
def commitDrainCfg (v rid : Nat) : Config :=
  initConfig [] [] [ (Operation.base (BaseOp.ret v), mkReq rid false) ]

/-- Claim C7: commit() throws InvalidStateError unless the state is
active, and otherwise only transitions the state to committing; the
transaction is not finalized immediately: a request already queued when
commit() is called still executes (operation run and success event
dispatched) before the complete event fires. -/
theorem commit_guard_and_drain (c : Config) (v rid : Nat) :
    (c.tx._state ≠ TxState.active →
      FDBTransaction.commit c = Except.error ("InvalidStateError", c)) ∧
    (c.tx._state = TxState.active →
      FDBTransaction.commit c = Except.ok
        { c with tx := { c.tx with _state := TxState.committing } }) ∧
    (∀ d, FDBTransaction.commit (commitDrainCfg v rid) = Except.ok d →
      runTrace 5 d =
        [ TraceItem.execOp rid,
          TraceItem.dispatched (some rid)
            { type := "success", bubbles := false, cancelable := false,
              eventPath := [Target.db, Target.tx] } false,
          TraceItem.dispatched none
            { type := "complete", bubbles := false, cancelable := false,
              eventPath := [] } false ]) := by
  refine ⟨?_, ?_, ?_⟩
  · intro h
    simp [FDBTransaction.commit, h]
  · intro h
    simp [FDBTransaction.commit, h]
  · intro d hd
    have h2 : FDBTransaction.commit (commitDrainCfg v rid) = Except.ok
        { commitDrainCfg v rid with
          tx := { (commitDrainCfg v rid).tx with
            _state := TxState.committing } } := rfl
    rw [h2] at hd
    cases hd
    rfl

/-- Witness for claim C7: committing with one queued request (id 1,
value 9) still executes it before the complete event. -/
theorem commit_guard_and_drain_witness :
    runTrace 5 { commitDrainCfg 9 1 with
      tx := { (commitDrainCfg 9 1).tx with _state := TxState.committing } } =
      [ TraceItem.execOp 1,
        TraceItem.dispatched (some 1)
          { type := "success", bubbles := false, cancelable := false,
            eventPath := [Target.db, Target.tx] } false,
        TraceItem.dispatched none
          { type := "complete", bubbles := false, cancelable := false,
            eventPath := [] } false ] :=
  (commit_guard_and_drain (commitDrainCfg 9 1) 9 1).2.2
    { commitDrainCfg 9 1 with
      tx := { (commitDrainCfg 9 1).tx with _state := TxState.committing } }
    rfl

/-- A successful association-list lookup exhibits list membership. -/
theorem lookup_mem {l : List (String × Nat)} {k : String} {v : Nat}
    (h : l.lookup k = some v) : (k, v) ∈ l := by
  induction l with
  | nil => simp [List.lookup] at h
  | cons p rest ih =>
    obtain ⟨a, b⟩ := p
    by_cases hk : (k == a) = true
    · have hka : k = a := eq_of_beq hk
      simp [List.lookup, hk] at h
      subst hka
      subst h
      exact List.mem_cons_self _ _
    · simp [List.lookup, hk] at h
      exact List.mem_cons_of_mem _ (ih h)

/-- Appending a binding for a key absent from the list makes lookup of
that key find the appended binding. -/
theorem lookup_append_none {l : List (String × Nat)} {k : String}
    (h : l.lookup k = none) (v : Nat) :
    (l ++ [(k, v)]).lookup k = some v := by
  induction l with
  | nil => simp [List.lookup]
  | cons p rest ih =>
    obtain ⟨a, b⟩ := p
    by_cases hk : (k == a) = true
    · simp [List.lookup, hk] at h
    · have hk2 : (k == a) = false := by simpa using hk
      simp only [List.cons_append, List.lookup, hk2] at h ⊢
      exact ih h

/-- Claim C8: on an active transaction, objectStore(name) for a name
outside the scope fails with NotFoundError whatever the database
registry contains; the handle cache only ever holds in-scope names (it
is filled by objectStore itself after the scope check), which the
hypothesis on the cache expresses. -/
theorem objectStore_outside_scope_not_found (t : FDBTransaction)
    (name : String) (db : List String)
    (hst : t._state = TxState.active)
    (hout : ¬ name ∈ t._scope)
    (hcache : ∀ p ∈ t._objectStoresCache, p.1 ∈ t._scope) :
    FDBTransaction.objectStore t name db = Except.error "NotFoundError" := by
  have hlk : t._objectStoresCache.lookup name = none := by
    cases h : t._objectStoresCache.lookup name with
    | none => rfl
    | some v => exact absurd (hcache (name, v) (lookup_mem h)) hout
  have hcon : t._scope.contains name = false := by
    cases hc : t._scope.contains name with
    | false => rfl
    | true => exact absurd (List.mem_of_elem_eq_true hc) hout
  simp [FDBTransaction.objectStore, hst, hlk, hcon]
  exact fun hmem => absurd hmem hout

/-- Witness for claim C8: a transaction scoped to store A, asked for
store B, fails with NotFoundError even though the database has a B. -/
theorem objectStore_outside_scope_not_found_witness :
    FDBTransaction.objectStore (initConfig ["A"] [] []).tx "B" ["B"] =
      Except.error "NotFoundError" :=
  objectStore_outside_scope_not_found (initConfig ["A"] [] []).tx "B" ["B"]
    rfl (by decide) (by decide)

/-- Claim C9: objectStore is idempotent on a transaction: once a call
returns a handle, calling objectStore with the same name on the
resulting transaction returns the identical cached handle and leaves the
transaction unchanged.  Two calls on the same active transaction
therefore return the identical handle both times. -/
theorem objectStore_idempotent (t : FDBTransaction) (name : String)
    (db : List String) (h : Nat) (t2 : FDBTransaction)
    (hc : FDBTransaction.objectStore t name db = Except.ok (h, t2)) :
    FDBTransaction.objectStore t2 name db = Except.ok (h, t2) := by
  unfold FDBTransaction.objectStore at hc ⊢
  by_cases hst : t._state = TxState.active
  · rw [if_neg (by simp [hst])] at hc
    cases hlk : t._objectStoresCache.lookup name with
    | some v =>
      rw [hlk] at hc
      simp only [Except.ok.injEq, Prod.mk.injEq] at hc
      obtain ⟨hv, ht⟩ := hc
      subst hv
      subst ht
      rw [if_neg (by simp [hst]), hlk]
    | none =>
      rw [hlk] at hc
      by_cases hin : (¬ t._scope.contains name ∨ ¬ db.contains name)
      · rw [if_pos hin] at hc
        exact absurd hc (by simp)
      · rw [if_neg hin] at hc
        simp only [Except.ok.injEq, Prod.mk.injEq] at hc
        obtain ⟨hv, ht⟩ := hc
        subst hv
        subst ht
        rw [if_neg (by simp [hst]), lookup_append_none hlk]
  · rw [if_pos (by simp [hst])] at hc
    exact absurd hc (by simp)

/-- Witness for claim C9 at a concrete transaction scoped to store A
over a database holding A: the first call creates handle 0 and the
second call returns the same cached handle. -/
theorem objectStore_idempotent_witness :
    FDBTransaction.objectStore
      { (initConfig ["A"] [] []).tx with
        _nextHandle := 1
        _objectStoresCache := [("A", 0)] } "A" ["A"] =
    Except.ok (0,
      { (initConfig ["A"] [] []).tx with
        _nextHandle := 1
        _objectStoresCache := [("A", 0)] }) :=
  objectStore_idempotent (initConfig ["A"] [] []).tx "A" ["A"] 0
    { (initConfig ["A"] [] []).tx with
      _nextHandle := 1
      _objectStoresCache := [("A", 0)] } rfl

/-- Claim C10: after commit() has moved the transaction to committing,
an already-queued source request whose operation throws and whose error
event is not canceled still triggers the full abort procedure: the
rollback log runs in reverse, the error is recorded, the state becomes
finished and the abort event is scheduled, even though a direct call to
abort() in the committing state throws InvalidStateError. -/
theorem committing_throw_still_aborts (n : String) (rid : Nat)
    (res0 : Option Nat) (err1 : Option String) (b0 : Bool)
    (log : List RollbackEntry) (cache : List (String × Nat))
    (scope : List String) (err0 : Option String) (k : Nat) (ts : List Task)
    (tr : List TraceItem) (dr : List FDBRequest)
    (hlog : ∀ e ∈ log, e.throws = false) :
    ∃ c2, FDBTransaction._start (genCfg TxState.committing b0 log cache
        scope err0 [(Operation.base (BaseOp.throwErr n),
          { id := rid, source := true, readyState := ReadyState.pending,
            result := res0, error := err1, cancelsError := false })]
        k ts tr dr) = Except.ok c2 ∧
      c2.tx._state = TxState.finished ∧
      c2.tx.error = some n ∧
      compOrder c2.trace =
        compOrder tr ++ (log.map RollbackEntry.id).reverse ∧
      Task.abortEventTask ∈ c2.tasks ∧
      FDBTransaction.abort (genCfg TxState.committing b0 log cache scope
        err0 [(Operation.base (BaseOp.throwErr n),
          { id := rid, source := true, readyState := ReadyState.pending,
            result := res0, error := err1, cancelsError := false })]
        k ts tr dr) =
      Except.error ("InvalidStateError",
        genCfg TxState.committing b0 log cache scope err0
        [(Operation.base (BaseOp.throwErr n),
          { id := rid, source := true, readyState := ReadyState.pending,
            result := res0, error := err1, cancelsError := false })]
        k ts tr dr) := by
  have habort := abort_ok_of_noThrow
    (genCfg TxState.committing true log cache scope err0 [] k ts
      ((tr ++ [TraceItem.execOp rid]) ++
        [TraceItem.dispatched (some rid)
          { type := "error", bubbles := true, cancelable := true,
            eventPath := [Target.db, Target.tx] } false])
      (dr ++
        [{ id := rid, source := true, readyState := ReadyState.done,
           result := none, error := some n, cancelsError := false }]))
    (some n) hlog
  have hstep : FDBTransaction._start (genCfg TxState.committing b0 log cache
      scope err0 [(Operation.base (BaseOp.throwErr n),
        { id := rid, source := true, readyState := ReadyState.pending,
          result := res0, error := err1, cancelsError := false })]
      k ts tr dr) =
      (match FDBTransaction._abort (some n)
        (genCfg TxState.committing true log cache scope err0 [] k ts
          ((tr ++ [TraceItem.execOp rid]) ++
            [TraceItem.dispatched (some rid)
              { type := "error", bubbles := true, cancelable := true,
                eventPath := [Target.db, Target.tx] } false])
          (dr ++
            [{ id := rid, source := true, readyState := ReadyState.done,
               result := none, error := some n,
               cancelsError := false }])) with
      | Except.ok c4 =>
        Except.ok { c4 with tasks := c4.tasks ++ [Task.startTask] }
      | Except.error c4 => Except.error c4) := rfl
  rw [habort] at hstep
  simp only [genCfg] at hstep
  refine ⟨_, hstep, rfl, rfl, ?_, by simp, rfl⟩
  simp only [abortMarkRequests]
  rw [compOrder_append, compOrder_append, compOrder_append, compOrder_comps]
  simp [compOrder, List.map_reverse]

/-- Witness for claim C10 at a concrete committing transaction with a
one-entry rollback log and a request throwing ConstraintError. -/
theorem committing_throw_still_aborts_witness :
    ∃ c2, FDBTransaction._start (genCfg TxState.committing false
        [⟨7, false⟩] [] ["A"] none
        [(Operation.base (BaseOp.throwErr "ConstraintError"),
          { id := 1, source := true, readyState := ReadyState.pending,
            result := none, error := none, cancelsError := false })]
        0 [] [] []) = Except.ok c2 ∧
      c2.tx._state = TxState.finished ∧
      c2.tx.error = some "ConstraintError" ∧
      compOrder c2.trace =
        compOrder [] ++ (([⟨7, false⟩] : List RollbackEntry).map
          RollbackEntry.id).reverse ∧
      Task.abortEventTask ∈ c2.tasks ∧
      FDBTransaction.abort (genCfg TxState.committing false [⟨7, false⟩] []
        ["A"] none [(Operation.base (BaseOp.throwErr "ConstraintError"),
          { id := 1, source := true, readyState := ReadyState.pending,
            result := none, error := none, cancelsError := false })]
        0 [] [] []) =
      Except.error ("InvalidStateError",
        genCfg TxState.committing false [⟨7, false⟩] [] ["A"] none
        [(Operation.base (BaseOp.throwErr "ConstraintError"),
          { id := 1, source := true, readyState := ReadyState.pending,
            result := none, error := none, cancelsError := false })]
        0 [] [] []) :=
  committing_throw_still_aborts "ConstraintError" 1 none none false
    [⟨7, false⟩] [] ["A"] none 0 [] [] [] (by decide)

/-- Result configuration of one driver invocation, also when it ends in
an uncaught exception. -/
def startResultCfg (c : Config) : Config :=
  match FDBTransaction._start c with
  | Except.ok c2 => c2
  | Except.error c2 => c2

/-- Whether one driver invocation ended in an uncaught exception. -/
def startThrew (c : Config) : Bool :=
  match FDBTransaction._start c with
  | Except.ok _ => false
  | Except.error _ => true

/-- State of the transaction after a call to abort, whether the call
returned or threw. -/
def abortResultState (c : Config) : TxState :=
  match FDBTransaction.abort c with
  | Except.ok c2 => c2.tx._state
  | Except.error p => p.2.tx._state

/-- Active transaction whose rollback log holds one throwing entry and
whose single queued source request throws ConstraintError with no
canceling listener. -/
def throwingCompErrorCfg : Config :=
  genCfg TxState.active false [⟨8, true⟩] [] ["A"] none
    [(Operation.base (BaseOp.throwErr "ConstraintError"), mkReq 1 false)]
    0 [] [] []

/-- Active transaction with rollback log [c3, c4] where calling c4
throws. -/
def abortThrowCfg : Config :=
  genCfg TxState.active false [⟨3, false⟩, ⟨4, true⟩] [] ["A"] none
    [] 0 [] [] []

/-- Committing transaction with a throwing rollback entry and one queued
source request that throws ConstraintError. -/
def committingThrowCompCfg : Config :=
  genCfg TxState.committing false [⟨9, true⟩] [] ["A"] none
    [(Operation.base (BaseOp.throwErr "ConstraintError"), mkReq 1 false)]
    0 [] [] []

/-- Claim C4, counterexample: when a rollback compensation throws, the
uncanceled error event's default action does not abort the transaction
with the failure's name: the compensation exception propagates out of
the driver loop, the transaction error stays unset, the state never
becomes finished and no abort event is scheduled. -/
theorem request_error_abort_incomplete_counterexample :
    startThrew throwingCompErrorCfg = true ∧
    (startResultCfg throwingCompErrorCfg).tx.error = none ∧
    (startResultCfg throwingCompErrorCfg).tx._state ≠ TxState.finished ∧
    ¬ Task.abortEventTask ∈ (startResultCfg throwingCompErrorCfg).tasks := by
  refine ⟨rfl, rfl, by decide, by decide⟩

/-- Claim C5, counterexample: abort() called from the active state on a
transaction with a throwing compensation does not succeed and does not
leave state finished: the exception propagates out of abort() and the
state stays active. -/
theorem abort_throwing_comp_counterexample :
    abortThrew abortThrowCfg = true ∧
    abortResultState abortThrowCfg = TxState.active ∧
    abortResultState abortThrowCfg ≠ TxState.finished := by
  refine ⟨rfl, rfl, by decide⟩

/-- Claim C10, counterexample: in the committing state, an already
queued throwing request with an uncanceled error event does not trigger
the full abort procedure when a rollback compensation throws: the
compensation exception propagates out of the driver loop, the error is
never recorded, the state stays committing (never finished) and no abort
event is scheduled. -/
theorem committing_abort_incomplete_counterexample :
    startThrew committingThrowCompCfg = true ∧
    (startResultCfg committingThrowCompCfg).tx.error = none ∧
    (startResultCfg committingThrowCompCfg).tx._state = TxState.committing ∧
    ¬ Task.abortEventTask ∈ (startResultCfg committingThrowCompCfg).tasks := by
  refine ⟨rfl, rfl, rfl, by decide⟩

end FakeIDB
